import Mathlib

/-!
Shallow embedding of the CATS runtime trace-recording engine
(`src/runtime/cats_runtime.cpp`, class `cats::CATS_Trace`), compiled with the
default stack-identifier strategy `CATS_STACK_IDENTIFIER_STRATEGY_VERY_FAST`
and all debug/warning macros at their default value 0.

Modelling conventions:
* machine integers (`uint64_t`, `size_t`, addresses) are `Nat`; the only place
  where 64-bit overflow is semantically relevant is the running-sum stack
  signature, which is therefore reduced `% 2^64`;
* the C deque `_scope_stack` is a `List Nat` whose head is the deque's *back*
  (`push_back` = cons, `back` = head, `pop_back` = tail);
* the `std::unordered_set<uint64_t> _scope_ids` is a duplicate-free `List Nat`;
* the ordered `std::map<const void*, CATS_Alloc_Info> _allocations` is an
  association list sorted strictly ascending by key; `lower_bound` plus
  predecessor-probing is implemented structurally on that sorted list;
* the `std::map<uint64_t, unordered_set<uint64_t>> _recorded_calls` is an
  association list from call id to the list of stack signatures seen;
* C strings are `String`; `strncpy` into a `cap`-byte buffer keeps the first
  `cap - 1` characters; the `$UNKNOWN$` fallback for null/empty names is kept;
* the event log `_events` is a `List` to which `record_event` appends.
-/

namespace CatsRuntime

/-- Capacity of the file-name field (`CATS_TRACE_FILE_NAME_SIZE`). -/
def CATS_TRACE_FILE_NAME_SIZE : Nat := 256

/-- Capacity of the function-name field (`CATS_TRACE_FUNC_NAME_SIZE`). -/
def CATS_TRACE_FUNC_NAME_SIZE : Nat := 64

/-- Capacity of the buffer-name field (`CATS_TRACE_BUFFER_NAME_SIZE`). -/
def CATS_TRACE_BUFFER_NAME_SIZE : Nat := 64

/-- Modulus of `uint64_t` arithmetic. -/
def U64 : Nat := 2 ^ 64

/-- Scope-type tag `CATS_SCOPE_TYPE_FUNCTION`. The defining header is not part
of `src/`; the numeric values follow the `Scope_Type` enum order (FUNCTION,
LOOP, CONDITIONAL, PARALLEL, UNSTRUCTURED) declared in `cats_runtime.h`. -/
def CATS_SCOPE_TYPE_FUNCTION : Nat := 0

/-- Scope-type tag `CATS_SCOPE_TYPE_LOOP`. -/
def CATS_SCOPE_TYPE_LOOP : Nat := 1

/-- Scope-type tag `CATS_SCOPE_TYPE_CONDITIONAL`. -/
def CATS_SCOPE_TYPE_CONDITIONAL : Nat := 2

/-- Scope-type tag `CATS_SCOPE_TYPE_PARALLEL`. -/
def CATS_SCOPE_TYPE_PARALLEL : Nat := 3

/-- Scope-type tag `CATS_SCOPE_TYPE_UNSTRUCTURED`. -/
def CATS_SCOPE_TYPE_UNSTRUCTURED : Nat := 4

/-- Name normalisation performed by the runtime before storing a C string into
a fixed `cap`-byte buffer: a null/empty name becomes `$UNKNOWN$`, and `strncpy`
keeps at most `cap - 1` characters. -/
def cstr (cap : Nat) (s : String) : String :=
  String.mk ((if s = "" then "$UNKNOWN$" else s).data.take (cap - 1))

/-- Provenance attached to every event (`CATS_Debug_Info`). -/
structure CATS_Debug_Info where
  funcname : String
  filename : String
  line : Nat
  col : Nat
deriving DecidableEq

/-- Kind-specific payload of an event: the tagged union of
`Allocation_Event_Args`, `Deallocation_Event_Args`, `Access_Event_Args`,
`Scope_Entry_Event_Args` and `Scope_Exit_Event_Args` together with the
`event_type` tag. -/
inductive CATS_Event_Args where
  | allocation (buffer_name : String) (buffer_id : Nat) (size : Nat)
  | deallocation (buffer_name : String) (buffer_id : Nat)
  | access (buffer_name : String) (buffer_id : Nat) (is_write : Bool)
  | scope_entry (scope_id : Nat) (type : Nat)
  | scope_exit (scope_id : Nat)
deriving DecidableEq

/-- One recorded event (`CATS_Event`). -/
structure CATS_Event where
  event_args : CATS_Event_Args
  debug_info : CATS_Debug_Info
deriving DecidableEq

/-- Metadata stored in the allocation table (`CATS_Alloc_Info`). -/
structure CATS_Alloc_Info where
  buffer_name : String
  buffer_id : Nat
  size : Nat
deriving DecidableEq

/-- Complete mutable state of a `CATS_Trace` engine. -/
structure CATS_Trace where
  scope_stack : List Nat
  scope_ids : List Nat
  allocations : List (Nat × CATS_Alloc_Info)
  recorded_calls : List (Nat × List Nat)
  stack_id : Nat
  events : List CATS_Event
deriving DecidableEq

/-- Freshly constructed engine (all containers empty, `stack_id = 0`). -/
def initTrace : CATS_Trace :=
  { scope_stack := [], scope_ids := [], allocations := [],
    recorded_calls := [], stack_id := 0, events := [] }

/-- Insertion into the `_scope_ids` unordered set. -/
def setInsert (s : Nat) (l : List Nat) : List Nat :=
  if s ∈ l then l else s :: l

/-- Running-sum stack signature of the VERY_FAST strategy: the engine
recomputes `stack_id` as the `uint64_t` sum of all stacked scope ids. -/
def stackSig (stack : List Nat) : Nat :=
  (stack.foldl (· + ·) 0) % U64

/-- Lookup in the `_recorded_calls` map. -/
def rcFind : List (Nat × List Nat) → Nat → Option (List Nat)
  | [], _ => none
  | (k, v) :: rest, c => if k = c then some v else rcFind rest c

/-- Adds a stack signature to the signature set of an existing call id in
`_recorded_calls`. -/
def rcAddSig : List (Nat × List Nat) → Nat → Nat → List (Nat × List Nat)
  | [], c, sid => [(c, [sid])]
  | (k, v) :: rest, c, sid =>
      if k = c then (k, sid :: v) :: rest else (k, v) :: rcAddSig rest c sid

/-- `CATS_Trace::already_recorded`: the dedup oracle. A first occurrence of
`call_id` records the current stack signature and answers `false`; a pair seen
before answers `true`; a new signature for a known call id is added and the
answer is `false`. Returns the verdict and the updated `_recorded_calls`. -/
def already_recorded (rc : List (Nat × List Nat)) (call_id sid : Nat) :
    Bool × List (Nat × List Nat) :=
  match rcFind rc call_id with
  | none => (false, (call_id, [sid]) :: rc)
  | some sigs => if sid ∈ sigs then (true, rc) else (false, rcAddSig rc call_id sid)

/-- Keyed insertion/overwrite into the sorted allocation table
(`_allocations[address] = info`). -/
def mapInsert : List (Nat × CATS_Alloc_Info) → Nat → CATS_Alloc_Info →
    List (Nat × CATS_Alloc_Info)
  | [], a, i => [(a, i)]
  | (b, j) :: rest, a, i =>
      if a < b then (a, i) :: (b, j) :: rest
      else if a = b then (a, i) :: rest
      else (b, j) :: mapInsert rest a i

/-- Exact-key lookup in the allocation table (`_allocations.find`). -/
def mapFind : List (Nat × CATS_Alloc_Info) → Nat → Option CATS_Alloc_Info
  | [], _ => none
  | (b, j) :: rest, a => if b = a then some j else mapFind rest a

/-- Exact-key removal from the allocation table (`_allocations.erase`). -/
def mapErase : List (Nat × CATS_Alloc_Info) → Nat → List (Nat × CATS_Alloc_Info)
  | [], _ => []
  | (b, j) :: rest, a => if b = a then rest else (b, j) :: mapErase rest a

/-- Containment lookup of `instrument_access` on the sorted allocation table:
`lower_bound(address)`; an exact base match wins; otherwise the immediately
preceding record qualifies iff `address ≤ base + size` (inclusive bound). -/
def findContaining : List (Nat × CATS_Alloc_Info) → Nat →
    Option (Nat × CATS_Alloc_Info)
  | [], _ => none
  | (b, i) :: rest, a =>
      if a < b then none
      else if b = a then some (b, i)
      else
        match rest with
        | [] => if a ≤ b + i.size then some (b, i) else none
        | (b2, _) :: _ =>
            if b2 ≤ a then findContaining rest a
            else if a ≤ b + i.size then some (b, i) else none

/-- Debug-info normalisation of `CATS_Trace::record_event`: empty names fall
back to `$UNKNOWN$` and both names are truncated to their buffer capacity. -/
def mkDebugInfo (funcname filename : String) (line col : Nat) : CATS_Debug_Info :=
  { funcname := cstr CATS_TRACE_FUNC_NAME_SIZE funcname,
    filename := cstr CATS_TRACE_FILE_NAME_SIZE filename,
    line := line, col := col }

/-- `CATS_Trace::record_event`: appends one event to the log. -/
def record_event (st : CATS_Trace) (args : CATS_Event_Args)
    (funcname filename : String) (line col : Nat) : CATS_Trace :=
  { st with events := st.events ++ [⟨args, mkDebugInfo funcname filename line col⟩] }

/-- `CATS_Trace::instrument_alloc`. The two leading arguments model
`omp_in_parallel()` and `omp_get_thread_num()` observed by the call. -/
def instrument_alloc (omp_in_parallel : Bool) (omp_thread_num : Nat)
    (call_id : Nat) (buffer_name : String) (address size : Nat)
    (funcname filename : String) (line col : Nat) (st : CATS_Trace) : CATS_Trace :=
  if omp_in_parallel ∧ omp_thread_num ≠ 0 then st
  else
    let pr := already_recorded st.recorded_calls call_id st.stack_id
    let st' := { st with recorded_calls := pr.2 }
    if pr.1 then st'
    else
      let name := cstr CATS_TRACE_BUFFER_NAME_SIZE buffer_name
      let st'' := record_event st' (.allocation name address size)
        funcname filename line col
      { st'' with
          allocations := mapInsert st''.allocations address ⟨name, address, size⟩ }

/-- `CATS_Trace::instrument_dealloc`. -/
def instrument_dealloc (omp_in_parallel : Bool) (omp_thread_num : Nat)
    (call_id address : Nat)
    (funcname filename : String) (line col : Nat) (st : CATS_Trace) : CATS_Trace :=
  if omp_in_parallel ∧ omp_thread_num ≠ 0 then st
  else
    let pr := already_recorded st.recorded_calls call_id st.stack_id
    let st' := { st with recorded_calls := pr.2 }
    if pr.1 then st'
    else
      match mapFind st'.allocations address with
      | none => st'
      | some info =>
          let st'' := record_event st'
            (.deallocation
              (String.mk (info.buffer_name.data.take (CATS_TRACE_BUFFER_NAME_SIZE - 1)))
              info.buffer_id)
            funcname filename line col
          { st'' with allocations := mapErase st''.allocations address }

/-- `CATS_Trace::instrument_access`. -/
def instrument_access (omp_in_parallel : Bool) (omp_thread_num : Nat)
    (call_id address : Nat) (is_write : Bool)
    (funcname filename : String) (line col : Nat) (st : CATS_Trace) : CATS_Trace :=
  if omp_in_parallel ∧ omp_thread_num ≠ 0 then st
  else
    let pr := already_recorded st.recorded_calls call_id st.stack_id
    let st' := { st with recorded_calls := pr.2 }
    if pr.1 then st'
    else
      match findContaining st'.allocations address with
      | none => st'
      | some r =>
          if r.2.buffer_id ≠ 0 then
            record_event st'
              (.access (cstr CATS_TRACE_BUFFER_NAME_SIZE r.2.buffer_name)
                r.2.buffer_id is_write)
              funcname filename line col
          else st'

/-- `CATS_Trace::instrument_scope_entry`: unconditionally pushes the scope id,
inserts it into the membership set and recomputes the running-sum signature;
only then is the dedup oracle consulted, and a duplicate verdict suppresses
only the ScopeEntry event. -/
def instrument_scope_entry (omp_in_parallel : Bool) (omp_thread_num : Nat)
    (call_id scope_id ty : Nat)
    (funcname filename : String) (line col : Nat) (st : CATS_Trace) : CATS_Trace :=
  if omp_in_parallel ∧ omp_thread_num ≠ 0 then st
  else
    let stack := scope_id :: st.scope_stack
    let st' := { st with
        scope_stack := stack,
        scope_ids := setInsert scope_id st.scope_ids,
        stack_id := stackSig stack }
    let pr := already_recorded st'.recorded_calls call_id st'.stack_id
    let st'' := { st' with recorded_calls := pr.2 }
    if pr.1 then st''
    else record_event st'' (.scope_entry scope_id ty) funcname filename line col

/-- Reconciliation loop of `instrument_scope_exit`: while the stack top differs
from the exit's scope id, pop it, erase it from the membership set, emit an
inferred ScopeExit (unless the exit call was judged a duplicate) and recompute
the signature. Returns the stack, membership set, log and `stack_id`. -/
def reconcile (scope_id : Nat) (recorded : Bool) (d : CATS_Debug_Info) :
    List Nat → List Nat → List CATS_Event → Nat →
    List Nat × List Nat × List CATS_Event × Nat
  | [], ids, evs, sid => ([], ids, evs, sid)
  | top :: rest, ids, evs, sid =>
      if top = scope_id then (top :: rest, ids, evs, sid)
      else
        reconcile scope_id recorded d rest (ids.erase top)
          (if recorded then evs else evs ++ [⟨.scope_exit top, d⟩])
          (stackSig rest)

/-- `CATS_Trace::instrument_scope_exit`. The `scope_type` argument only feeds
the (compiled-out) unmatched-scope warning. -/
def instrument_scope_exit (omp_in_parallel : Bool) (omp_thread_num : Nat)
    (call_id scope_id scope_type : Nat)
    (funcname filename : String) (line col : Nat) (st : CATS_Trace) : CATS_Trace :=
  if omp_in_parallel ∧ omp_thread_num ≠ 0 then st
  else if scope_id ∈ st.scope_ids then
    let d := mkDebugInfo funcname filename line col
    let pr := already_recorded st.recorded_calls call_id st.stack_id
    let evs0 :=
      if pr.1 then st.events else st.events ++ [⟨.scope_exit scope_id, d⟩]
    let r := reconcile scope_id pr.1 d
      st.scope_stack (st.scope_ids.erase scope_id) evs0 st.stack_id
    let st' := { st with
        scope_stack := r.1, scope_ids := r.2.1,
        recorded_calls := pr.2, events := r.2.2.1, stack_id := r.2.2.2 }
    match st'.scope_stack with
    | [] => st'
    | top :: rest =>
        if top = scope_id then
          { st' with scope_stack := rest, stack_id := stackSig rest }
        else st'
  else st

/-- One instrumentation call with its literal arguments. -/
inductive CATS_Call where
  | alloc (call_id : Nat) (buffer_name : String) (address size : Nat)
      (funcname filename : String) (line col : Nat)
  | dealloc (call_id address : Nat) (funcname filename : String) (line col : Nat)
  | access (call_id address : Nat) (is_write : Bool)
      (funcname filename : String) (line col : Nat)
  | scope_entry (call_id scope_id ty : Nat)
      (funcname filename : String) (line col : Nat)
  | scope_exit (call_id scope_id ty : Nat)
      (funcname filename : String) (line col : Nat)
deriving DecidableEq

/-- Dispatches one call to its entry point, under the given thread context. -/
def step (omp_in_parallel : Bool) (omp_thread_num : Nat) (st : CATS_Trace) :
    CATS_Call → CATS_Trace
  | .alloc c n a sz fn fl l co =>
      instrument_alloc omp_in_parallel omp_thread_num c n a sz fn fl l co st
  | .dealloc c a fn fl l co =>
      instrument_dealloc omp_in_parallel omp_thread_num c a fn fl l co st
  | .access c a w fn fl l co =>
      instrument_access omp_in_parallel omp_thread_num c a w fn fl l co st
  | .scope_entry c s ty fn fl l co =>
      instrument_scope_entry omp_in_parallel omp_thread_num c s ty fn fl l co st
  | .scope_exit c s ty fn fl l co =>
      instrument_scope_exit omp_in_parallel omp_thread_num c s ty fn fl l co st

/-- Runs a call sequence on the primary thread outside any parallel region. -/
def runP (st : CATS_Trace) (calls : List CATS_Call) : CATS_Trace :=
  calls.foldl (step false 0) st

/-- Runs a call sequence in which every call carries the thread context
(`omp_in_parallel()`, `omp_get_thread_num()`) it observes. -/
def runT (st : CATS_Trace)
    (calls : List ((Bool × Nat) × CATS_Call)) : CATS_Trace :=
  calls.foldl (fun s tc => step tc.1.1 tc.1.2 s tc.2) st

/-- Whether a threaded call passes the parallel-region participation gate:
it does, unless it runs inside a parallel region on a non-primary thread. -/
def isPrimary (tc : (Bool × Nat) × CATS_Call) : Bool :=
  !(tc.1.1 && tc.1.2 != 0)

/-- Scope-type rendering of `CATS_Trace::save`'s inner switch. -/
def scopeTypeTag (ty : Nat) : String :=
  if ty = CATS_SCOPE_TYPE_FUNCTION then "func"
  else if ty = CATS_SCOPE_TYPE_LOOP then "loop"
  else if ty = CATS_SCOPE_TYPE_CONDITIONAL then "cond"
  else if ty = CATS_SCOPE_TYPE_PARALLEL then "para"
  else if ty = CATS_SCOPE_TYPE_UNSTRUCTURED then "unst"
  else "n/a"

/-- Kind-specific portion of one rendered event, following the `switch` in
`CATS_Trace::save` character by character. -/
def serializeEventArgs : CATS_Event_Args → String
  | .allocation name id size =>
      ", \"type\": \"allocation\", \"buffer_name\": \"" ++ name ++
        "\", \"buffer_id\": " ++ toString id ++ ", \"size\": " ++ toString size
  | .deallocation name id =>
      ", \"type\": \"deallocation\", \"buffer_name\": \"" ++ name ++
        "\", \"buffer_id\": " ++ toString id
  | .access name id w =>
      ", \"type\": \"access\", \"mode\": " ++ (if w then "\"w\"" else "\"r\"") ++
        ", \"buffer_name\": \"" ++ name ++ "\", \"buffer_id\": " ++ toString id
  | .scope_entry sid ty =>
      ", \"type\": \"scope_entry\", \"scope_type\": \"" ++ scopeTypeTag ty ++
        "\", \"id\": " ++ toString sid
  | .scope_exit sid =>
      ", \"type\": \"scope_exit\", \"id\": " ++ toString sid

/-- One rendered element of the `events` array: the common debug fields
followed by the kind-specific fields, exactly as emitted by `save`. -/
def serializeEvent (e : CATS_Event) : String :=
  "    \x7b\"funcname\": \"" ++ e.debug_info.funcname ++ "\", \"filename\": \"" ++
    e.debug_info.filename ++ "\", \"line\": " ++ toString e.debug_info.line ++
    ", \"col\": " ++ toString e.debug_info.col ++
    serializeEventArgs e.event_args ++ "\x7d"

/-- Body of the `events` array as produced by `save`'s output loop: every
element but the first is preceded by a comma separator. The `Bool` component
of the accumulator tracks whether the iteration is at the first element. -/
def eventsLoopBody (evs : List CATS_Event) : String :=
  (evs.foldl
    (fun acc e => (acc.1 ++ (if acc.2 then "" else ",\n") ++ serializeEvent e, false))
    ("", true)).1

/-- `CATS_Trace::save`, modelled as the text it streams out for a given event
log (the engine always writes to the fixed file name, which is irrelevant to
the document's content). -/
def save (evs : List CATS_Event) : String :=
  "\x7b\n  \"events\": [\n" ++ eventsLoopBody evs ++ "\n  ]\n\x7d\n"

/-- Joins rendered elements with the comma separator; the reference rendering
of an ordered array of elements. -/
def joinComma : List String → String
  | [] => ""
  | [x] => x
  | x :: y :: rest => x ++ ",\n" ++ joinComma (y :: rest)

/-- Specification-side reading of `save`'s output: the `events` array is the
recorded log rendered element-wise, in recording order. -/
def specEventsArray (evs : List CATS_Event) : List String :=
  evs.map serializeEvent

/-- Specification-side reading of the whole document produced by `save`. -/
def specDocument (elems : List String) : String :=
  "\x7b\n  \"events\": [\n" ++ joinComma elems ++ "\n  ]\n\x7d\n"

/-- Quote-scanning automaton for the rendered document: the state is
(inside a quoted literal, previous character was an escaping backslash). -/
def qstep : Bool × Bool → Char → Bool × Bool
  | (inStr, true), _ => (inStr, false)
  | (inStr, false), ch =>
      if ch = '\\' then (if inStr then (inStr, true) else (false, false))
      else if ch = '"' then (if inStr then (false, false) else (true, false))
      else (inStr, false)

/-- Runs the quote scanner over a string from the outside-of-literal state. A
fragment in which every quoted literal opens and closes ends in
`(false, false)`; this is a necessary condition for well-formed output. -/
def scanQuotes (s : String) : Bool × Bool :=
  s.data.foldl qstep (false, false)

/-- Whether an event is an Allocation event. -/
def isAllocationEvent (e : CATS_Event) : Bool :=
  match e.event_args with
  | .allocation _ _ _ => true
  | _ => false

/-- Whether an event is a ScopeEntry event for the given scope id. -/
def isScopeEntryFor (sid : Nat) (e : CATS_Event) : Bool :=
  match e.event_args with
  | .scope_entry s _ => s == sid
  | _ => false

/-- Call-site id of a call. -/
def callIdOf : CATS_Call → Nat
  | .alloc c _ _ _ _ _ _ _ => c
  | .dealloc c _ _ _ _ _ => c
  | .access c _ _ _ _ _ _ => c
  | .scope_entry c _ _ _ _ _ _ => c
  | .scope_exit c _ _ _ _ _ _ => c

/-- Call-site ids of a call sequence. -/
def callIdsOf (l : List CATS_Call) : List Nat :=
  l.map callIdOf

/-- Scope id introduced by a call (scope entries only). -/
def entryIdOf : CATS_Call → Option Nat
  | .scope_entry _ s _ _ _ _ _ => some s
  | _ => none

/-- Scope ids entered by a call sequence. -/
def scopeIdsOf (l : List CATS_Call) : List Nat :=
  l.filterMap entryIdOf

/-- Event corresponding to a scope-entry or scope-exit call (only applied to
sequences of scope calls; the remaining constructors are never reached under
`WellNested`). -/
def scopeCallEvent : CATS_Call → CATS_Event
  | .scope_entry _ s ty fn fl l co => ⟨.scope_entry s ty, mkDebugInfo fn fl l co⟩
  | .scope_exit _ s _ fn fl l co => ⟨.scope_exit s, mkDebugInfo fn fl l co⟩
  | .alloc _ _ _ _ fn fl l co => ⟨.scope_exit 0, mkDebugInfo fn fl l co⟩
  | .dealloc _ _ fn fl l co => ⟨.scope_exit 0, mkDebugInfo fn fl l co⟩
  | .access _ _ _ fn fl l co => ⟨.scope_exit 0, mkDebugInfo fn fl l co⟩

/-- Well-nested (properly bracketed) sequences of scope enter/exit calls:
the empty sequence, or an entry for scope `s`, a well-nested inner sequence,
the matching exit for `s`, and a well-nested remainder. -/
inductive WellNested : List CATS_Call → Prop where
  | nil : WellNested []
  | node (c1 c2 s ty1 ty2 : Nat) (fn1 fl1 : String) (l1 o1 : Nat)
      (fn2 fl2 : String) (l2 o2 : Nat) (inner rest : List CATS_Call) :
      WellNested inner → WellNested rest →
      WellNested (.scope_entry c1 s ty1 fn1 fl1 l1 o1 ::
        inner ++ .scope_exit c2 s ty2 fn2 fl2 l2 o2 :: rest)

/-! ### Basic facts about the gate and the runners -/

theorem step_secondary (inPar : Bool) (tid : Nat) (st : CATS_Trace)
    (c : CATS_Call) (h1 : inPar = true) (h2 : tid ≠ 0) :
    step inPar tid st c = st := by
  cases c <;>
    simp [step, instrument_alloc, instrument_dealloc, instrument_access,
      instrument_scope_entry, instrument_scope_exit, h1, h2]

theorem step_primary (inPar : Bool) (tid : Nat) (st : CATS_Trace)
    (c : CATS_Call) (h : ¬(inPar = true ∧ tid ≠ 0)) :
    step inPar tid st c = step false 0 st c := by
  by_cases hp : inPar = true
  · have h2 : tid = 0 := by
      by_contra hne
      exact h ⟨hp, hne⟩
    subst hp h2
    rfl
  · have hp' : inPar = false := by
      cases inPar
      · rfl
      · exact absurd rfl hp
    subst hp'
    cases c <;>
      simp [step, instrument_alloc, instrument_dealloc, instrument_access,
        instrument_scope_entry, instrument_scope_exit]

/-- Claim C6: an instrumentation call made inside a parallel region by a
thread other than the primary thread leaves the engine state completely
unchanged, and a threaded call sequence produces exactly the trace of its
primary-thread calls alone. -/
theorem claim_C6_parallel_gate :
    (∀ (inPar : Bool) (tid : Nat) (st : CATS_Trace) (c : CATS_Call),
      inPar = true → tid ≠ 0 → step inPar tid st c = st) ∧
    (∀ (st : CATS_Trace) (calls : List ((Bool × Nat) × CATS_Call)),
      runT st calls = runP st ((calls.filter isPrimary).map (fun tc => tc.2))) := by
  constructor
  · exact step_secondary
  · intro st calls
    induction calls generalizing st with
    | nil => rfl
    | cons tc rest ih =>
        obtain ⟨⟨inPar, tid⟩, c⟩ := tc
        by_cases hsec : inPar = true ∧ tid ≠ 0
        · have hgate : isPrimary ((inPar, tid), c) = false := by
            simp [isPrimary, hsec.1, hsec.2]
          simp only [runT, List.foldl_cons, List.filter_cons, hgate]
          rw [step_secondary inPar tid st c hsec.1 hsec.2]
          exact ih st
        · have hcase : inPar = false ∨ tid = 0 := by
            by_cases hp : inPar = true
            · right
              by_contra hne
              exact hsec ⟨hp, hne⟩
            · left
              cases inPar
              · rfl
              · exact absurd rfl hp
          have hgate : isPrimary ((inPar, tid), c) = true := by
            rcases hcase with h | h <;> simp [isPrimary, h]
          simp only [runT, List.foldl_cons, List.filter_cons, hgate,
            if_pos, List.map_cons, runP]
          rw [step_primary inPar tid st c hsec]
          exact ih (step false 0 st c)

/-- Witness for C6 at a concrete secondary-thread call. -/
theorem claim_C6_parallel_gate_witness :
    step true 1 initTrace (CATS_Call.alloc 1 "x" 5 4 "f" "g" 1 1) = initTrace :=
  claim_C6_parallel_gate.1 true 1 initTrace
    (CATS_Call.alloc 1 "x" 5 4 "f" "g" 1 1) rfl (by decide)

/-- Claim C7: a primary-thread scope-entry call always pushes the scope id,
inserts it into the membership set and recomputes the running-sum signature;
the dedup verdict affects only whether the ScopeEntry event is appended. -/
theorem claim_C7_entry_bookkeeping (inPar : Bool) (tid : Nat)
    (h : ¬(inPar = true ∧ tid ≠ 0))
    (c s ty : Nat) (fn fl : String) (l co : Nat) (st : CATS_Trace) :
    (instrument_scope_entry inPar tid c s ty fn fl l co st).scope_stack
        = s :: st.scope_stack ∧
    (instrument_scope_entry inPar tid c s ty fn fl l co st).scope_ids
        = setInsert s st.scope_ids ∧
    (instrument_scope_entry inPar tid c s ty fn fl l co st).stack_id
        = stackSig (s :: st.scope_stack) ∧
    (instrument_scope_entry inPar tid c s ty fn fl l co st).allocations
        = st.allocations ∧
    (instrument_scope_entry inPar tid c s ty fn fl l co st).recorded_calls
        = (already_recorded st.recorded_calls c (stackSig (s :: st.scope_stack))).2 ∧
    ((already_recorded st.recorded_calls c (stackSig (s :: st.scope_stack))).1 = true →
      (instrument_scope_entry inPar tid c s ty fn fl l co st).events = st.events) ∧
    ((already_recorded st.recorded_calls c (stackSig (s :: st.scope_stack))).1 = false →
      (instrument_scope_entry inPar tid c s ty fn fl l co st).events
        = st.events ++ [⟨.scope_entry s ty, mkDebugInfo fn fl l co⟩]) := by
  have hg : step inPar tid st (.scope_entry c s ty fn fl l co)
      = step false 0 st (.scope_entry c s ty fn fl l co) := step_primary _ _ _ _ h
  simp only [step] at hg
  rw [hg]
  unfold instrument_scope_entry
  cases hpr : (already_recorded st.recorded_calls c (stackSig (s :: st.scope_stack))).1 <;>
    simp [record_event, hpr]

/-- Witness for C7 at a concrete primary-thread call. -/
theorem claim_C7_entry_bookkeeping_witness :
    (instrument_scope_entry false 0 5 7 0 "f" "g" 1 2 initTrace).scope_stack
      = 7 :: initTrace.scope_stack :=
  (claim_C7_entry_bookkeeping false 0 (by decide) 5 7 0 "f" "g" 1 2 initTrace).1

theorem already_recorded_true_eq (rc : List (Nat × List Nat)) (c sid : Nat)
    (h : (already_recorded rc c sid).1 = true) :
    (already_recorded rc c sid).2 = rc := by
  unfold already_recorded at h ⊢
  cases hf : rcFind rc c with
  | none => simp [hf] at h
  | some sigs =>
      by_cases hs : sid ∈ sigs
      · simp [hf, hs]
      · simp [hf, hs] at h

/-- Claim C5 (amended): a deallocation call that the dedup oracle does not
judge a duplicate removes the record at the exact address when one is present
and appends a Deallocation event iff such a record existed; a call judged a
duplicate for its (callsite id, stack signature) pair is a complete no-op and
leaves even a present record in place. -/
theorem claim_C5_amended (inPar : Bool) (tid : Nat)
    (h : ¬(inPar = true ∧ tid ≠ 0))
    (c a : Nat) (fn fl : String) (l co : Nat) (st : CATS_Trace) :
    ((already_recorded st.recorded_calls c st.stack_id).1 = true →
      instrument_dealloc inPar tid c a fn fl l co st = st) ∧
    ((already_recorded st.recorded_calls c st.stack_id).1 = false →
      (instrument_dealloc inPar tid c a fn fl l co st).recorded_calls
          = (already_recorded st.recorded_calls c st.stack_id).2 ∧
      (instrument_dealloc inPar tid c a fn fl l co st).scope_stack
          = st.scope_stack ∧
      (instrument_dealloc inPar tid c a fn fl l co st).scope_ids = st.scope_ids ∧
      (instrument_dealloc inPar tid c a fn fl l co st).stack_id = st.stack_id ∧
      (∀ info, mapFind st.allocations a = some info →
        (instrument_dealloc inPar tid c a fn fl l co st).allocations
            = mapErase st.allocations a ∧
        (instrument_dealloc inPar tid c a fn fl l co st).events
            = st.events ++ [⟨.deallocation
                (String.mk (info.buffer_name.data.take (CATS_TRACE_BUFFER_NAME_SIZE - 1)))
                info.buffer_id, mkDebugInfo fn fl l co⟩]) ∧
      (mapFind st.allocations a = none →
        (instrument_dealloc inPar tid c a fn fl l co st).allocations
            = st.allocations ∧
        (instrument_dealloc inPar tid c a fn fl l co st).events = st.events)) := by
  have hg : step inPar tid st (.dealloc c a fn fl l co)
      = step false 0 st (.dealloc c a fn fl l co) := step_primary _ _ _ _ h
  simp only [step] at hg
  rw [hg]
  constructor
  · intro hdup
    have h2 := already_recorded_true_eq st.recorded_calls c st.stack_id hdup
    unfold instrument_dealloc
    simp [hdup, h2]
  · intro hnd
    unfold instrument_dealloc
    cases hma : mapFind st.allocations a with
    | none => simp [hnd, hma]
    | some info =>
        simp only [hnd, hma, record_event]
        refine ⟨by simp, by simp, by simp, by simp, ?_, ?_⟩
        · intro info' hinfo'
          cases hinfo'
          exact ⟨by simp, by simp⟩
        · intro hnone
          exact Option.noConfusion hnone

/-- Counterexample to C5 as stated: after `alloc(1, 100)`, `dealloc(2, 100)`,
`alloc(3, 100)` from a fresh engine, a second `dealloc(2, 100)` finds a live
record at address 100 yet removes nothing and appends no event, because the
dedup pair (2, signature 0) was recorded by the first deallocation call. -/
theorem claim_C5_counterexample :
    mapFind (runP initTrace [.alloc 1 "x" 100 8 "f" "g" 1 1,
        .dealloc 2 100 "f" "g" 2 1, .alloc 3 "x" 100 8 "f" "g" 3 1]).allocations 100
      = some ⟨"x", 100, 8⟩ ∧
    (instrument_dealloc false 0 2 100 "f" "g" 4 1
        (runP initTrace [.alloc 1 "x" 100 8 "f" "g" 1 1,
          .dealloc 2 100 "f" "g" 2 1, .alloc 3 "x" 100 8 "f" "g" 3 1])).allocations
      = (runP initTrace [.alloc 1 "x" 100 8 "f" "g" 1 1,
          .dealloc 2 100 "f" "g" 2 1, .alloc 3 "x" 100 8 "f" "g" 3 1]).allocations ∧
    (instrument_dealloc false 0 2 100 "f" "g" 4 1
        (runP initTrace [.alloc 1 "x" 100 8 "f" "g" 1 1,
          .dealloc 2 100 "f" "g" 2 1, .alloc 3 "x" 100 8 "f" "g" 3 1])).events
      = (runP initTrace [.alloc 1 "x" 100 8 "f" "g" 1 1,
          .dealloc 2 100 "f" "g" 2 1, .alloc 3 "x" 100 8 "f" "g" 3 1]).events := by
  refine ⟨by decide, by decide, by decide⟩

/-- Claim C5 witness: concrete non-duplicate deallocation of a live record. -/
theorem claim_C5_amended_witness :
    (instrument_dealloc false 0 9 100 "f" "g" 5 1
        (instrument_alloc false 0 8 "x" 100 8 "f" "g" 1 1 initTrace)).allocations
      = mapErase (instrument_alloc false 0 8 "x" 100 8 "f" "g" 1 1 initTrace).allocations 100 :=
  (((claim_C5_amended false 0 (by decide) 9 100 "f" "g" 5 1
      (instrument_alloc false 0 8 "x" 100 8 "f" "g" 1 1 initTrace)).2
    (by decide)).2.2.2.2.1 ⟨"x", 100, 8⟩ (by decide)).1

/-- Claim C2 (amended): deduplication is keyed on the pair (callsite id,
running-sum stack signature). A first occurrence of a callsite id appends
the event; a later call with the same callsite id appends nothing when its
signature equals the recorded one and appends again when it differs.
Identical enclosing stacks always share a signature, but two distinct stacks
whose scope-id sums coincide (e.g. stacks [1, 2] and [3]) collide and the
second call records nothing. -/
theorem claim_C2_amended (st st2 : CATS_Trace) (c : Nat) (n n2 : String)
    (a a2 sz sz2 : Nat) (f1 g1 f2 g2 : String) (l1 o1 l2 o2 : Nat)
    (h1 : rcFind st.recorded_calls c = none)
    (h2 : rcFind st2.recorded_calls c = some [st.stack_id]) :
    (instrument_alloc false 0 c n a sz f1 g1 l1 o1 st).events
        = st.events ++ [⟨.allocation (cstr CATS_TRACE_BUFFER_NAME_SIZE n) a sz,
            mkDebugInfo f1 g1 l1 o1⟩] ∧
    (st2.stack_id = st.stack_id →
      instrument_alloc false 0 c n2 a2 sz2 f2 g2 l2 o2 st2 = st2) ∧
    (st2.stack_id ≠ st.stack_id →
      (instrument_alloc false 0 c n2 a2 sz2 f2 g2 l2 o2 st2).events
          = st2.events ++ [⟨.allocation (cstr CATS_TRACE_BUFFER_NAME_SIZE n2) a2 sz2,
              mkDebugInfo f2 g2 l2 o2⟩]) := by
  refine ⟨?_, ?_, ?_⟩
  · unfold instrument_alloc
    simp [already_recorded, h1, record_event]
  · intro heq
    unfold instrument_alloc
    simp [already_recorded, h2, heq]
    rw [← heq]
  · intro hne
    unfold instrument_alloc
    simp [already_recorded, h2, hne, record_event]

/-- Counterexample to C2 as stated: callsite 7 is executed once under the
enclosing stack [1, 2] (top is 2) and once under the distinct enclosing stack
[3]; both stacks have running-sum signature 3, so the second call is judged a
duplicate and only one Allocation event is recorded instead of two. -/
theorem claim_C2_counterexample :
    (runP initTrace [.scope_entry 10 1 0 "f" "g" 1 1,
        .scope_entry 11 2 0 "f" "g" 1 1]).scope_stack = [2, 1] ∧
    (runP initTrace [.scope_entry 10 1 0 "f" "g" 1 1,
        .scope_entry 11 2 0 "f" "g" 1 1, .alloc 7 "x" 100 8 "f" "g" 1 1,
        .scope_exit 12 2 0 "f" "g" 1 1, .scope_exit 13 1 0 "f" "g" 1 1,
        .scope_entry 14 3 0 "f" "g" 1 1]).scope_stack = [3] ∧
    ((runP initTrace [.scope_entry 10 1 0 "f" "g" 1 1,
        .scope_entry 11 2 0 "f" "g" 1 1, .alloc 7 "x" 100 8 "f" "g" 1 1,
        .scope_exit 12 2 0 "f" "g" 1 1, .scope_exit 13 1 0 "f" "g" 1 1,
        .scope_entry 14 3 0 "f" "g" 1 1,
        .alloc 7 "y" 200 8 "f" "g" 1 1]).events.filter isAllocationEvent).length
      = 1 := by
  refine ⟨by decide, by decide, by decide⟩

/-- Claim C2 witness: a fresh callsite appends; repeating it under an equal
signature appends nothing. -/
theorem claim_C2_amended_witness :
    (instrument_alloc false 0 7 "x" 100 8 "f" "g" 1 1 initTrace).events
        = initTrace.events ++ [⟨.allocation (cstr CATS_TRACE_BUFFER_NAME_SIZE "x") 100 8,
            mkDebugInfo "f" "g" 1 1⟩] ∧
    instrument_alloc false 0 7 "y" 200 8 "f" "g" 2 2
        (instrument_alloc false 0 7 "x" 100 8 "f" "g" 1 1 initTrace)
      = instrument_alloc false 0 7 "x" 100 8 "f" "g" 1 1 initTrace := by
  have h := claim_C2_amended initTrace
    (instrument_alloc false 0 7 "x" 100 8 "f" "g" 1 1 initTrace)
    7 "x" "y" 100 200 8 8 "f" "g" "f" "g" 1 1 2 2 (by decide) (by decide)
  exact ⟨h.1, h.2.1 (by decide)⟩

/-- Claim C10: an access call that resolves to no registered buffer appends
no event but still records its (callsite id, stack signature) dedup pair; any
later access call with the same callsite id whose signature is already in the
recorded set is a complete no-op, even when its address would resolve. -/
theorem claim_C10_access_dedup (c a : Nat) (w : Bool) (fn fl : String)
    (l co : Nat) (st : CATS_Trace)
    (hfresh : rcFind st.recorded_calls c = none)
    (hmiss : findContaining st.allocations a = none) :
    instrument_access false 0 c a w fn fl l co st
        = { st with recorded_calls := (c, [st.stack_id]) :: st.recorded_calls } ∧
    (∀ (st2 : CATS_Trace) (a2 : Nat) (w2 : Bool) (fn2 fl2 : String)
        (l2 co2 : Nat) (sigs : List Nat) (r : Nat × CATS_Alloc_Info),
      rcFind st2.recorded_calls c = some sigs → st.stack_id ∈ sigs →
      st2.stack_id = st.stack_id →
      findContaining st2.allocations a2 = some r →
      instrument_access false 0 c a2 w2 fn2 fl2 l2 co2 st2 = st2) := by
  constructor
  · unfold instrument_access
    simp [already_recorded, hfresh, hmiss]
  · intro st2 a2 w2 fn2 fl2 l2 co2 sigs r hfind hmem hsid _hres
    have hm : st2.stack_id ∈ sigs := hsid ▸ hmem
    unfold instrument_access
    simp [already_recorded, hfind, hm]

/-- Claim C10 witness: a miss at address 5 records pair (1, 0); after buffer
"b" is registered at 10, an access at 10 with callsite 1 is still inert. -/
theorem claim_C10_access_dedup_witness :
    instrument_access false 0 1 5 false "f" "g" 1 1 initTrace
        = { initTrace with recorded_calls := [(1, [0])] } ∧
    instrument_access false 0 1 10 true "f" "g" 2 2
        (instrument_alloc false 0 2 "b" 10 4 "f" "g" 1 1
          (instrument_access false 0 1 5 false "f" "g" 1 1 initTrace))
      = instrument_alloc false 0 2 "b" 10 4 "f" "g" 1 1
          (instrument_access false 0 1 5 false "f" "g" 1 1 initTrace) := by
  have h := claim_C10_access_dedup 1 5 false "f" "g" 1 1 initTrace
    (by decide) (by decide)
  exact ⟨h.1, h.2 _ 10 true "f" "g" 2 2 [0] (10, ⟨"b", 10, 4⟩)
    (by decide) (by decide) (by decide) (by decide)⟩

theorem scope_entry_eval (c s ty : Nat) (fn fl : String) (l co : Nat)
    (st : CATS_Trace) (hfresh : rcFind st.recorded_calls c = none) :
    instrument_scope_entry false 0 c s ty fn fl l co st =
      { st with
          scope_stack := s :: st.scope_stack,
          scope_ids := setInsert s st.scope_ids,
          stack_id := stackSig (s :: st.scope_stack),
          recorded_calls :=
            (c, [stackSig (s :: st.scope_stack)]) :: st.recorded_calls,
          events := st.events ++ [⟨.scope_entry s ty, mkDebugInfo fn fl l co⟩] } := by
  unfold instrument_scope_entry
  simp [already_recorded, hfresh, record_event]

/-- Claim C1 (amended): from a fresh engine, `enter(A)`, `enter(B)`, `exit(A)`
with distinct scope ids and distinct callsite ids leaves the scope stack empty
and logs the entries followed by the ScopeExit for A and then the synthetic
inferred ScopeExit for B — the real exit for A is appended strictly *before*
the inferred exit for B, and the inferred exit carries the exit call's debug
location. -/
theorem claim_C1_amended (A B c1 c2 c3 ty1 ty2 ty3 : Nat)
    (f1 g1 f2 g2 f3 g3 : String) (l1 o1 l2 o2 l3 o3 : Nat)
    (hAB : A ≠ B) (h12 : c1 ≠ c2) (h13 : c1 ≠ c3) (h23 : c2 ≠ c3) :
    (instrument_scope_exit false 0 c3 A ty3 f3 g3 l3 o3
        (instrument_scope_entry false 0 c2 B ty2 f2 g2 l2 o2
          (instrument_scope_entry false 0 c1 A ty1 f1 g1 l1 o1 initTrace))).scope_stack
      = [] ∧
    (instrument_scope_exit false 0 c3 A ty3 f3 g3 l3 o3
        (instrument_scope_entry false 0 c2 B ty2 f2 g2 l2 o2
          (instrument_scope_entry false 0 c1 A ty1 f1 g1 l1 o1 initTrace))).events
      = [⟨.scope_entry A ty1, mkDebugInfo f1 g1 l1 o1⟩,
         ⟨.scope_entry B ty2, mkDebugInfo f2 g2 l2 o2⟩,
         ⟨.scope_exit A, mkDebugInfo f3 g3 l3 o3⟩,
         ⟨.scope_exit B, mkDebugInfo f3 g3 l3 o3⟩] := by
  have hBA : B ≠ A := Ne.symm hAB
  have e1 : instrument_scope_entry false 0 c1 A ty1 f1 g1 l1 o1 initTrace
      = ⟨[A], [A], [], [(c1, [stackSig [A]])], stackSig [A],
         [⟨.scope_entry A ty1, mkDebugInfo f1 g1 l1 o1⟩]⟩ := by
    simp [instrument_scope_entry, already_recorded, rcFind, setInsert,
      record_event, initTrace]
  have e2 : instrument_scope_entry false 0 c2 B ty2 f2 g2 l2 o2
        ⟨[A], [A], [], [(c1, [stackSig [A]])], stackSig [A],
         [⟨.scope_entry A ty1, mkDebugInfo f1 g1 l1 o1⟩]⟩
      = ⟨[B, A], [B, A], [], [(c2, [stackSig [B, A]]), (c1, [stackSig [A]])],
         stackSig [B, A],
         [⟨.scope_entry A ty1, mkDebugInfo f1 g1 l1 o1⟩,
          ⟨.scope_entry B ty2, mkDebugInfo f2 g2 l2 o2⟩]⟩ := by
    simp [instrument_scope_entry, already_recorded, rcFind, setInsert,
      record_event, h12, hBA]
  rw [e1, e2]
  constructor <;>
    simp [instrument_scope_exit, already_recorded, rcFind, record_event,
      reconcile, hAB, hBA, h13, h23]

/-- Counterexample to C1 as stated: for `enter(1)`, `enter(2)`, `exit(1)` from
a fresh engine the log is entry 1, entry 2, exit 1, exit 2 — the real
ScopeExit for A = 1 is appended at index 2, strictly *before* the inferred
ScopeExit for B = 2 at index 3, contradicting the claimed order (the stack
does end empty). -/
theorem claim_C1_counterexample :
    (runP initTrace [.scope_entry 10 1 0 "f" "g" 1 1,
        .scope_entry 11 2 0 "f" "g" 2 1,
        .scope_exit 12 1 0 "f" "g" 3 1]).events.map CATS_Event.event_args
      = [.scope_entry 1 0, .scope_entry 2 0, .scope_exit 1, .scope_exit 2] ∧
    (runP initTrace [.scope_entry 10 1 0 "f" "g" 1 1,
        .scope_entry 11 2 0 "f" "g" 2 1,
        .scope_exit 12 1 0 "f" "g" 3 1]).events.findIdx
        (fun e => decide (e.event_args = .scope_exit 2)) = 3 ∧
    (runP initTrace [.scope_entry 10 1 0 "f" "g" 1 1,
        .scope_entry 11 2 0 "f" "g" 2 1,
        .scope_exit 12 1 0 "f" "g" 3 1]).events.findIdx
        (fun e => decide (e.event_args = .scope_exit 1)) = 2 ∧
    (runP initTrace [.scope_entry 10 1 0 "f" "g" 1 1,
        .scope_entry 11 2 0 "f" "g" 2 1,
        .scope_exit 12 1 0 "f" "g" 3 1]).scope_stack = [] := by
  refine ⟨by decide, by decide, by decide, by decide⟩

/-- Claim C1 witness at concrete ids. -/
theorem claim_C1_amended_witness :
    (instrument_scope_exit false 0 12 1 0 "f" "g" 3 1
        (instrument_scope_entry false 0 11 2 0 "f" "g" 2 1
          (instrument_scope_entry false 0 10 1 0 "f" "g" 1 1 initTrace))).scope_stack
      = [] :=
  (claim_C1_amended 1 2 10 11 12 0 0 0 "f" "g" "f" "g" "f" "g" 1 1 2 1 3 1
    (by decide) (by decide) (by decide) (by decide)).1

/-- Whether an allocation table is sorted strictly ascending by base address,
the representation invariant of the `std::map`. -/
def SortedTable (l : List (Nat × CATS_Alloc_Info)) : Prop :=
  l.Pairwise (fun p q => p.1 < q.1)

theorem findContaining_spec :
    ∀ (l : List (Nat × CATS_Alloc_Info)), SortedTable l →
      ∀ (a : Nat) (r : Nat × CATS_Alloc_Info),
        (findContaining l a = some r ↔
          r ∈ l ∧ r.1 ≤ a ∧ (r.1 = a ∨ a ≤ r.1 + r.2.size) ∧
            ∀ p ∈ l, p.1 ≤ a → p.1 ≤ r.1) := by
  intro l
  induction l with
  | nil =>
      intro _ a r
      simp [findContaining]
  | cons hd tl ih =>
      intro hs a r
      obtain ⟨b, i⟩ := hd
      have hpair := List.pairwise_cons.mp hs
      by_cases h1 : a < b
      · simp only [findContaining, if_pos h1]
        constructor
        · intro h
          exact Option.noConfusion h
        · rintro ⟨hmem, hle, -, -⟩
          rcases List.mem_cons.mp hmem with rfl | hmem'
          · exact absurd hle (by omega)
          · have hb := hpair.1 _ hmem'
            exact absurd hle (by omega)
      · by_cases h2 : b = a
        · subst h2
          simp only [findContaining, if_neg h1, if_pos rfl]
          constructor
          · intro h
            cases h
            refine ⟨List.mem_cons_self _ _, le_refl _, Or.inl rfl, ?_⟩
            intro p hp hpb
            exact hpb
          · rintro ⟨hmem, hle, -, hmax⟩
            rcases List.mem_cons.mp hmem with rfl | hmem'
            · rfl
            · have hb := hpair.1 _ hmem'
              have := hmax (b, i) (List.mem_cons_self _ _) (le_refl b)
              exact absurd this (by omega)
        · have hba : b < a := by omega
          cases tl with
          | nil =>
              simp only [findContaining, if_neg h1, if_neg h2]
              by_cases h3 : a ≤ b + i.size
              · rw [if_pos h3]
                constructor
                · intro h
                  cases h
                  refine ⟨List.mem_cons_self _ _, le_of_lt hba, Or.inr h3, ?_⟩
                  intro p hp hpa
                  rcases List.mem_singleton.mp hp with rfl
                  exact le_refl _
                · rintro ⟨hmem, -, -, -⟩
                  rcases List.mem_singleton.mp hmem with rfl
                  rfl
              · rw [if_neg h3]
                constructor
                · intro h
                  exact Option.noConfusion h
                · rintro ⟨hmem, -, hq, -⟩
                  rcases List.mem_singleton.mp hmem with rfl
                  rcases hq with h | h
                  · exact absurd h h2
                  · exact absurd h h3
          | cons hd2 tl2 =>
              obtain ⟨b2, j⟩ := hd2
              by_cases h4 : b2 ≤ a
              · have hstep : findContaining ((b, i) :: (b2, j) :: tl2) a
                    = findContaining ((b2, j) :: tl2) a := by
                  show (if a < b then none
                    else if b = a then some (b, i)
                    else if b2 ≤ a then findContaining ((b2, j) :: tl2) a
                    else if a ≤ b + i.size then some (b, i) else none)
                    = findContaining ((b2, j) :: tl2) a
                  rw [if_neg h1, if_neg h2, if_pos h4]
                rw [hstep, ih hpair.2 a r]
                have hb2 : b < b2 := hpair.1 (b2, j) (List.mem_cons_self _ _)
                constructor
                · rintro ⟨hmem, hle, hq, hmax⟩
                  refine ⟨List.mem_cons_of_mem _ hmem, hle, hq, ?_⟩
                  intro p hp hpa
                  rcases List.mem_cons.mp hp with rfl | hp'
                  · have := hmax (b2, j) (List.mem_cons_self _ _) h4
                    omega
                  · exact hmax p hp' hpa
                · rintro ⟨hmem, hle, hq, hmax⟩
                  rcases List.mem_cons.mp hmem with rfl | hmem'
                  · have := hmax (b2, j) (List.mem_cons_of_mem _ (List.mem_cons_self _ _)) h4
                    exact absurd this (by omega)
                  · refine ⟨hmem', hle, hq, ?_⟩
                    intro p hp hpa
                    exact hmax p (List.mem_cons_of_mem _ hp) hpa
              · have hstep : findContaining ((b, i) :: (b2, j) :: tl2) a
                    = (if a ≤ b + i.size then some (b, i) else none) := by
                  show (if a < b then none
                    else if b = a then some (b, i)
                    else if b2 ≤ a then findContaining ((b2, j) :: tl2) a
                    else if a ≤ b + i.size then some (b, i) else none)
                    = (if a ≤ b + i.size then some (b, i) else none)
                  rw [if_neg h1, if_neg h2, if_neg h4]
                rw [hstep]
                have htl : ∀ p ∈ (b2, j) :: tl2, a < p.1 := by
                  intro p hp
                  rcases List.mem_cons.mp hp with rfl | hp'
                  · omega
                  · have h5 := (List.pairwise_cons.mp hpair.2).1 _ hp'
                    omega
                by_cases h3 : a ≤ b + i.size
                · rw [if_pos h3]
                  constructor
                  · intro h
                    cases h
                    refine ⟨List.mem_cons_self _ _, le_of_lt hba, Or.inr h3, ?_⟩
                    intro p hp hpa
                    rcases List.mem_cons.mp hp with rfl | hp'
                    · exact le_refl _
                    · exact absurd hpa (not_le.mpr (htl _ hp'))
                  · rintro ⟨hmem, hle, -, -⟩
                    rcases List.mem_cons.mp hmem with rfl | hmem'
                    · rfl
                    · exact absurd hle (not_le.mpr (htl _ hmem'))
                · rw [if_neg h3]
                  constructor
                  · intro h
                    exact Option.noConfusion h
                  · rintro ⟨hmem, hle, hq, -⟩
                    rcases List.mem_cons.mp hmem with rfl | hmem'
                    · rcases hq with h | h
                      · exact absurd h h2
                      · exact absurd h h3
                    · exact absurd hle (not_le.mpr (htl _ hmem'))

/-- Claim C3: after registering buffer "x" of size 40 at a (nonzero) address
with nothing else in the table, a fresh access at `addr + 39` resolves to "x"
and appends an Access event, while an access at `addr + 41` resolves to no
record and appends no event; in general, on a sorted table the containment
lookup returns exactly the record with the greatest base ≤ the address, where
an exact base match always qualifies and a strict predecessor qualifies
precisely when `address ≤ base + size` (inclusive upper bound). -/
theorem claim_C3_containment (addr : Nat) (h0 : 0 < addr)
    (cid1 cid2 cid3 : Nat) (h12 : cid1 ≠ cid2) (h13 : cid1 ≠ cid3)
    (w w' : Bool) (f1 g1 f2 g2 f3 g3 : String) (l1 o1 l2 o2 l3 o3 : Nat) :
    findContaining [(addr, ⟨"x", addr, 40⟩)] (addr + 39)
        = some (addr, ⟨"x", addr, 40⟩) ∧
    (instrument_access false 0 cid2 (addr + 39) w f2 g2 l2 o2
        (instrument_alloc false 0 cid1 "x" addr 40 f1 g1 l1 o1 initTrace)).events
      = (instrument_alloc false 0 cid1 "x" addr 40 f1 g1 l1 o1 initTrace).events
        ++ [⟨.access "x" addr w, mkDebugInfo f2 g2 l2 o2⟩] ∧
    findContaining [(addr, ⟨"x", addr, 40⟩)] (addr + 41) = none ∧
    (instrument_access false 0 cid3 (addr + 41) w' f3 g3 l3 o3
        (instrument_alloc false 0 cid1 "x" addr 40 f1 g1 l1 o1 initTrace)).events
      = (instrument_alloc false 0 cid1 "x" addr 40 f1 g1 l1 o1 initTrace).events ∧
    (∀ (l : List (Nat × CATS_Alloc_Info)), SortedTable l →
      ∀ (a : Nat) (r : Nat × CATS_Alloc_Info),
        (findContaining l a = some r ↔
          r ∈ l ∧ r.1 ≤ a ∧ (r.1 = a ∨ a ≤ r.1 + r.2.size) ∧
            ∀ p ∈ l, p.1 ≤ a → p.1 ≤ r.1)) := by
  have hx : cstr CATS_TRACE_BUFFER_NAME_SIZE "x" = "x" := by decide
  have hlt1 : ¬ (addr + 39 < addr) := by omega
  have hne1 : ¬ (addr = addr + 39) := by omega
  have hle1 : addr + 39 ≤ addr + 40 := by omega
  have hlt2 : ¬ (addr + 41 < addr) := by omega
  have hne2 : ¬ (addr = addr + 41) := by omega
  have hle2 : ¬ (addr + 41 ≤ addr + 40) := by omega
  have hid : addr ≠ 0 := by omega
  have e1 : instrument_alloc false 0 cid1 "x" addr 40 f1 g1 l1 o1 initTrace
      = ⟨[], [], [(addr, ⟨"x", addr, 40⟩)], [(cid1, [0])], 0,
         [⟨.allocation "x" addr 40, mkDebugInfo f1 g1 l1 o1⟩]⟩ := by
    simp [instrument_alloc, already_recorded, rcFind, record_event, mapInsert,
      initTrace, hx]
  rw [e1]
  refine ⟨?_, ?_, ?_, ?_, findContaining_spec⟩
  · simp [findContaining, hlt1, hne1, hle1]
  · simp [instrument_access, already_recorded, rcFind, findContaining,
      record_event, h12, hlt1, hne1, hle1, hid, hx]
  · simp [findContaining, hlt2, hne2, hle2]
  · simp [instrument_access, already_recorded, rcFind, findContaining,
      record_event, h13, hlt2, hne2, hle2]

/-- Claim C3 witness at a concrete address and callsites. -/
theorem claim_C3_containment_witness :
    (instrument_access false 0 2 1039 false "f" "g" 2 1
        (instrument_alloc false 0 1 "x" 1000 40 "f" "g" 1 1 initTrace)).events
      = (instrument_alloc false 0 1 "x" 1000 40 "f" "g" 1 1 initTrace).events
        ++ [⟨.access "x" 1000 false, mkDebugInfo "f" "g" 2 1⟩] :=
  (claim_C3_containment 1000 (by decide) 1 2 3 (by decide) (by decide)
    false false "f" "g" "f" "g" "f" "g" 1 1 2 1 3 1).2.1

theorem scope_exit_eval_top (c s ty : Nat) (fn fl : String) (l co : Nat)
    (st : CATS_Trace) (tail : List Nat)
    (hstack : st.scope_stack = s :: tail)
    (hmem : s ∈ st.scope_ids)
    (hfresh : rcFind st.recorded_calls c = none) :
    instrument_scope_exit false 0 c s ty fn fl l co st =
      { st with
          scope_stack := tail,
          scope_ids := st.scope_ids.erase s,
          stack_id := stackSig tail,
          recorded_calls := (c, [st.stack_id]) :: st.recorded_calls,
          events := st.events ++ [⟨.scope_exit s, mkDebugInfo fn fl l co⟩] } := by
  unfold instrument_scope_exit
  simp [already_recorded, hfresh, hmem, hstack, reconcile]

theorem runP_cons (st : CATS_Trace) (c : CATS_Call) (l : List CATS_Call) :
    runP st (c :: l) = runP (step false 0 st c) l := rfl

theorem runP_append (st : CATS_Trace) (l1 l2 : List CATS_Call) :
    runP st (l1 ++ l2) = runP (runP st l1) l2 := by
  simp [runP, List.foldl_append]

theorem wn_run {l : List CATS_Call} (h : WellNested l) :
    ∀ st : CATS_Trace,
      (callIdsOf l).Nodup →
      (scopeIdsOf l).Nodup →
      (∀ s' ∈ scopeIdsOf l, s' ∉ st.scope_ids) →
      (∀ c' ∈ callIdsOf l, rcFind st.recorded_calls c' = none) →
      st.stack_id = stackSig st.scope_stack →
      (runP st l).scope_stack = st.scope_stack ∧
      (runP st l).scope_ids = st.scope_ids ∧
      (runP st l).allocations = st.allocations ∧
      (runP st l).stack_id = st.stack_id ∧
      (runP st l).events = st.events ++ l.map scopeCallEvent ∧
      (∀ c', c' ∉ callIdsOf l →
        rcFind (runP st l).recorded_calls c' = rcFind st.recorded_calls c') := by
  induction h with
  | nil =>
      intro st _ _ _ _ _
      simp [runP, callIdsOf]
  | node c1 c2 s ty1 ty2 fn1 fl1 l1 o1 fn2 fl2 l2 o2 inner rest hin hrest ihin ihrest =>
      intro st hndc hnds hnotin hfresh hsig
      have hcall : callIdsOf (CATS_Call.scope_entry c1 s ty1 fn1 fl1 l1 o1 ::
          inner ++ CATS_Call.scope_exit c2 s ty2 fn2 fl2 l2 o2 :: rest)
          = c1 :: (callIdsOf inner ++ c2 :: callIdsOf rest) := by
        simp [callIdsOf, callIdOf]
      have hscope : scopeIdsOf (CATS_Call.scope_entry c1 s ty1 fn1 fl1 l1 o1 ::
          inner ++ CATS_Call.scope_exit c2 s ty2 fn2 fl2 l2 o2 :: rest)
          = s :: (scopeIdsOf inner ++ scopeIdsOf rest) := by
        simp [scopeIdsOf, entryIdOf]
      rw [hcall] at hndc hfresh
      rw [hscope] at hnds hnotin
      have hc1notin : c1 ∉ callIdsOf inner ++ c2 :: callIdsOf rest :=
        (List.nodup_cons.mp hndc).1
      obtain ⟨hndci, hndc2rest, hdisj⟩ :=
        List.nodup_append.mp (List.nodup_cons.mp hndc).2
      have hc2notinI : c2 ∉ callIdsOf inner :=
        fun hc => hdisj hc (List.mem_cons_self _ _)
      have hc2notinR : c2 ∉ callIdsOf rest := (List.nodup_cons.mp hndc2rest).1
      have hndcr := (List.nodup_cons.mp hndc2rest).2
      have hc1ne2 : c1 ≠ c2 := fun he =>
        hc1notin (he ▸ List.mem_append_right _ (List.mem_cons_self _ _))
      have hc1notinI : c1 ∉ callIdsOf inner :=
        fun hc => hc1notin (List.mem_append_left _ hc)
      have hc1notinR : c1 ∉ callIdsOf rest :=
        fun hc => hc1notin (List.mem_append_right _ (List.mem_cons_of_mem _ hc))
      have hsnotinIR : s ∉ scopeIdsOf inner ++ scopeIdsOf rest :=
        (List.nodup_cons.mp hnds).1
      obtain ⟨hndsi, hndsr, hsdisj⟩ :=
        List.nodup_append.mp (List.nodup_cons.mp hnds).2
      have hsnotinI : s ∉ scopeIdsOf inner :=
        fun hc => hsnotinIR (List.mem_append_left _ hc)
      have hsS : s ∉ st.scope_ids := hnotin s (List.mem_cons_self _ _)
      have hset : setInsert s st.scope_ids = s :: st.scope_ids := by
        simp [setInsert, hsS]
      have hfc1 : rcFind st.recorded_calls c1 = none :=
        hfresh c1 (List.mem_cons_self _ _)
      have e1 := scope_entry_eval c1 s ty1 fn1 fl1 l1 o1 st hfc1
      have s1stack : (instrument_scope_entry false 0 c1 s ty1 fn1 fl1 l1 o1 st).scope_stack
          = s :: st.scope_stack := by rw [e1]
      have s1ids : (instrument_scope_entry false 0 c1 s ty1 fn1 fl1 l1 o1 st).scope_ids
          = s :: st.scope_ids := by rw [e1]; exact hset
      have s1alloc : (instrument_scope_entry false 0 c1 s ty1 fn1 fl1 l1 o1 st).allocations
          = st.allocations := by rw [e1]
      have s1sid : (instrument_scope_entry false 0 c1 s ty1 fn1 fl1 l1 o1 st).stack_id
          = stackSig (s :: st.scope_stack) := by rw [e1]
      have s1ev : (instrument_scope_entry false 0 c1 s ty1 fn1 fl1 l1 o1 st).events
          = st.events ++ [⟨.scope_entry s ty1, mkDebugInfo fn1 fl1 l1 o1⟩] := by rw [e1]
      have s1rc : (instrument_scope_entry false 0 c1 s ty1 fn1 fl1 l1 o1 st).recorded_calls
          = (c1, [stackSig (s :: st.scope_stack)]) :: st.recorded_calls := by rw [e1]
      obtain ⟨r1stack, r1ids, r1alloc, r1sid, r1ev, r1rc⟩ :=
        ihin (instrument_scope_entry false 0 c1 s ty1 fn1 fl1 l1 o1 st)
          hndci hndsi
          (by
            intro s' hs'
            rw [s1ids]
            intro hmem
            rcases List.mem_cons.mp hmem with rfl | hmem'
            · exact hsnotinI hs'
            · exact hnotin s' (List.mem_cons_of_mem _ (List.mem_append_left _ hs')) hmem')
          (by
            intro c' hc'
            rw [s1rc]
            have hne : c1 ≠ c' := fun he => hc1notinI (he ▸ hc')
            show (if c1 = c' then some [stackSig (s :: st.scope_stack)]
              else rcFind st.recorded_calls c') = none
            rw [if_neg hne]
            exact hfresh c' (List.mem_cons_of_mem _ (List.mem_append_left _ hc')))
          (by rw [s1sid, s1stack])
      rw [s1stack] at r1stack
      rw [s1ids] at r1ids
      rw [s1alloc] at r1alloc
      rw [s1sid] at r1sid
      rw [s1ev] at r1ev
      have hfc2 : rcFind (runP (instrument_scope_entry false 0 c1 s ty1 fn1 fl1 l1 o1 st)
          inner).recorded_calls c2 = none := by
        rw [r1rc c2 hc2notinI, s1rc]
        show (if c1 = c2 then some [stackSig (s :: st.scope_stack)]
          else rcFind st.recorded_calls c2) = none
        rw [if_neg hc1ne2]
        exact hfresh c2 (List.mem_cons_of_mem _
          (List.mem_append_right _ (List.mem_cons_self _ _)))
      have e3 := scope_exit_eval_top c2 s ty2 fn2 fl2 l2 o2
        (runP (instrument_scope_entry false 0 c1 s ty1 fn1 fl1 l1 o1 st) inner)
        st.scope_stack r1stack (by rw [r1ids]; exact List.mem_cons_self _ _) hfc2
      have hrun : runP st (CATS_Call.scope_entry c1 s ty1 fn1 fl1 l1 o1 ::
          inner ++ CATS_Call.scope_exit c2 s ty2 fn2 fl2 l2 o2 :: rest)
          = runP (instrument_scope_exit false 0 c2 s ty2 fn2 fl2 l2 o2
              (runP (instrument_scope_entry false 0 c1 s ty1 fn1 fl1 l1 o1 st) inner))
            rest := by
        rw [runP_append, runP_cons, runP_cons]
        rfl
      rw [hrun]
      have herase : ((s :: st.scope_ids).erase s) = st.scope_ids :=
        List.erase_cons_head s st.scope_ids
      have s3stack : (instrument_scope_exit false 0 c2 s ty2 fn2 fl2 l2 o2
          (runP (instrument_scope_entry false 0 c1 s ty1 fn1 fl1 l1 o1 st)
            inner)).scope_stack = st.scope_stack := by rw [e3]
      have s3ids : (instrument_scope_exit false 0 c2 s ty2 fn2 fl2 l2 o2
          (runP (instrument_scope_entry false 0 c1 s ty1 fn1 fl1 l1 o1 st)
            inner)).scope_ids = st.scope_ids := by
        rw [e3]
        show (runP (instrument_scope_entry false 0 c1 s ty1 fn1 fl1 l1 o1 st)
          inner).scope_ids.erase s = st.scope_ids
        rw [r1ids]
        exact herase
      have s3alloc : (instrument_scope_exit false 0 c2 s ty2 fn2 fl2 l2 o2
          (runP (instrument_scope_entry false 0 c1 s ty1 fn1 fl1 l1 o1 st)
            inner)).allocations = st.allocations := by
        rw [e3]
        show (runP (instrument_scope_entry false 0 c1 s ty1 fn1 fl1 l1 o1 st)
          inner).allocations = st.allocations
        rw [r1alloc]
      have s3sid : (instrument_scope_exit false 0 c2 s ty2 fn2 fl2 l2 o2
          (runP (instrument_scope_entry false 0 c1 s ty1 fn1 fl1 l1 o1 st)
            inner)).stack_id = st.stack_id := by
        rw [e3]
        show stackSig st.scope_stack = st.stack_id
        exact hsig.symm
      have s3ev : (instrument_scope_exit false 0 c2 s ty2 fn2 fl2 l2 o2
          (runP (instrument_scope_entry false 0 c1 s ty1 fn1 fl1 l1 o1 st)
            inner)).events
          = st.events ++ (⟨.scope_entry s ty1, mkDebugInfo fn1 fl1 l1 o1⟩ ::
              (inner.map scopeCallEvent ++
                [⟨.scope_exit s, mkDebugInfo fn2 fl2 l2 o2⟩])) := by
        rw [e3]
        show (runP (instrument_scope_entry false 0 c1 s ty1 fn1 fl1 l1 o1 st)
            inner).events ++ [⟨.scope_exit s, mkDebugInfo fn2 fl2 l2 o2⟩] = _
        rw [r1ev]
        simp
      have s3rc : (instrument_scope_exit false 0 c2 s ty2 fn2 fl2 l2 o2
          (runP (instrument_scope_entry false 0 c1 s ty1 fn1 fl1 l1 o1 st)
            inner)).recorded_calls
          = (c2, [(runP (instrument_scope_entry false 0 c1 s ty1 fn1 fl1 l1 o1 st)
                inner).stack_id]) ::
              (runP (instrument_scope_entry false 0 c1 s ty1 fn1 fl1 l1 o1 st)
                inner).recorded_calls := by rw [e3]
      obtain ⟨r3stack, r3ids, r3alloc, r3sid, r3ev, r3rc⟩ :=
        ihrest (instrument_scope_exit false 0 c2 s ty2 fn2 fl2 l2 o2
            (runP (instrument_scope_entry false 0 c1 s ty1 fn1 fl1 l1 o1 st) inner))
          hndcr hndsr
          (by
            intro s' hs'
            rw [s3ids]
            exact hnotin s' (List.mem_cons_of_mem _ (List.mem_append_right _ hs')))
          (by
            intro c' hc'
            rw [s3rc]
            have hne2 : c2 ≠ c' := fun he => hc2notinR (he ▸ hc')
            show (if c2 = c' then
                some [(runP (instrument_scope_entry false 0 c1 s ty1 fn1 fl1 l1 o1 st)
                  inner).stack_id]
              else rcFind (runP (instrument_scope_entry false 0 c1 s ty1 fn1 fl1 l1 o1 st)
                inner).recorded_calls c') = none
            rw [if_neg hne2]
            have hcI : c' ∉ callIdsOf inner :=
              fun hcI => hdisj hcI (List.mem_cons_of_mem _ hc')
            rw [r1rc c' hcI, s1rc]
            show (if c1 = c' then some [stackSig (s :: st.scope_stack)]
              else rcFind st.recorded_calls c') = none
            have hne1 : c1 ≠ c' := fun he => hc1notinR (he ▸ hc')
            rw [if_neg hne1]
            exact hfresh c' (List.mem_cons_of_mem _
              (List.mem_append_right _ (List.mem_cons_of_mem _ hc'))))
          (by rw [s3sid, s3stack]; exact hsig)
      refine ⟨?_, ?_, ?_, ?_, ?_, ?_⟩
      · rw [r3stack, s3stack]
      · rw [r3ids, s3ids]
      · rw [r3alloc, s3alloc]
      · rw [r3sid, s3sid]
      · rw [r3ev, s3ev]
        simp [scopeCallEvent]
      · intro c' hc'
        rw [hcall] at hc'
        have hne1 : c1 ≠ c' := fun he => hc' (he ▸ List.mem_cons_self _ _)
        have hcI : c' ∉ callIdsOf inner := fun hcI =>
          hc' (List.mem_cons_of_mem _ (List.mem_append_left _ hcI))
        have hne2 : c2 ≠ c' := fun he =>
          hc' (he ▸ List.mem_cons_of_mem _
            (List.mem_append_right _ (List.mem_cons_self _ _)))
        have hcR : c' ∉ callIdsOf rest := fun hcR =>
          hc' (List.mem_cons_of_mem _
            (List.mem_append_right _ (List.mem_cons_of_mem _ hcR)))
        rw [r3rc c' hcR, s3rc]
        show (if c2 = c' then
            some [(runP (instrument_scope_entry false 0 c1 s ty1 fn1 fl1 l1 o1 st)
              inner).stack_id]
          else rcFind (runP (instrument_scope_entry false 0 c1 s ty1 fn1 fl1 l1 o1 st)
            inner).recorded_calls c') = rcFind st.recorded_calls c'
        rw [if_neg hne2, r1rc c' hcI, s1rc]
        show (if c1 = c' then some [stackSig (s :: st.scope_stack)]
          else rcFind st.recorded_calls c') = rcFind st.recorded_calls c'
        rw [if_neg hne1]

/-- Claim C4 (amended): for every well-nested sequence of scope enter/exit
calls in which all scope ids are unique *and all callsite ids are pairwise
distinct*, the final scope stack is empty and the log is exactly one
ScopeEntry and one ScopeExit event per call, in call order — hence one
matched, properly nested pair per scope id. Without the callsite-distinctness
condition a dedup collision can suppress events (see the counterexample). -/
theorem claim_C4_wellnested (l : List CATS_Call) (h : WellNested l)
    (hs : (scopeIdsOf l).Nodup) (hc : (callIdsOf l).Nodup) :
    (runP initTrace l).scope_stack = [] ∧
    (runP initTrace l).events = l.map scopeCallEvent := by
  obtain ⟨h1, _, _, _, h5, _⟩ :=
    wn_run h initTrace hc hs (by intro s' _; simp [initTrace])
      (by intro c' _; rfl) rfl
  exact ⟨h1, by rw [h5]; rfl⟩

/-- Counterexample to C4 as stated: the sequence `enter(cs 1, scope 1)`,
`enter(cs 2, scope 2)`, `exit(cs 3, scope 2)`, `exit(cs 4, scope 1)`,
`enter(cs 2, scope 3)`, `exit(cs 5, scope 3)` is well-nested with unique
scope ids, yet the second use of callsite 2 happens under stack signature
1 + 2 = 3 — already recorded for callsite 2 — so scope 3's ScopeEntry event
is deduplicated away: the log holds no ScopeEntry for scope 3 but one
ScopeExit for it, not one matched pair per scope id. -/
theorem claim_C4_counterexample :
    WellNested [CATS_Call.scope_entry 1 1 1 "f" "g" 1 1,
      CATS_Call.scope_entry 2 2 1 "f" "g" 1 1,
      CATS_Call.scope_exit 3 2 1 "f" "g" 1 1,
      CATS_Call.scope_exit 4 1 1 "f" "g" 1 1,
      CATS_Call.scope_entry 2 3 1 "f" "g" 1 1,
      CATS_Call.scope_exit 5 3 1 "f" "g" 1 1] ∧
    (scopeIdsOf [CATS_Call.scope_entry 1 1 1 "f" "g" 1 1,
      CATS_Call.scope_entry 2 2 1 "f" "g" 1 1,
      CATS_Call.scope_exit 3 2 1 "f" "g" 1 1,
      CATS_Call.scope_exit 4 1 1 "f" "g" 1 1,
      CATS_Call.scope_entry 2 3 1 "f" "g" 1 1,
      CATS_Call.scope_exit 5 3 1 "f" "g" 1 1]).Nodup ∧
    (runP initTrace [CATS_Call.scope_entry 1 1 1 "f" "g" 1 1,
      CATS_Call.scope_entry 2 2 1 "f" "g" 1 1,
      CATS_Call.scope_exit 3 2 1 "f" "g" 1 1,
      CATS_Call.scope_exit 4 1 1 "f" "g" 1 1,
      CATS_Call.scope_entry 2 3 1 "f" "g" 1 1,
      CATS_Call.scope_exit 5 3 1 "f" "g" 1 1]).scope_stack = [] ∧
    ((runP initTrace [CATS_Call.scope_entry 1 1 1 "f" "g" 1 1,
      CATS_Call.scope_entry 2 2 1 "f" "g" 1 1,
      CATS_Call.scope_exit 3 2 1 "f" "g" 1 1,
      CATS_Call.scope_exit 4 1 1 "f" "g" 1 1,
      CATS_Call.scope_entry 2 3 1 "f" "g" 1 1,
      CATS_Call.scope_exit 5 3 1 "f" "g" 1 1]).events.filter
        (isScopeEntryFor 3)).length = 0 ∧
    ((runP initTrace [CATS_Call.scope_entry 1 1 1 "f" "g" 1 1,
      CATS_Call.scope_entry 2 2 1 "f" "g" 1 1,
      CATS_Call.scope_exit 3 2 1 "f" "g" 1 1,
      CATS_Call.scope_exit 4 1 1 "f" "g" 1 1,
      CATS_Call.scope_entry 2 3 1 "f" "g" 1 1,
      CATS_Call.scope_exit 5 3 1 "f" "g" 1 1]).events.filter
        (fun e => decide (e.event_args = CATS_Event_Args.scope_exit 3))).length
      = 1 := by
  refine ⟨?_, by decide, by decide, by decide, by decide⟩
  exact WellNested.node 1 4 1 1 1 "f" "g" 1 1 "f" "g" 1 1
    [CATS_Call.scope_entry 2 2 1 "f" "g" 1 1,
      CATS_Call.scope_exit 3 2 1 "f" "g" 1 1]
    [CATS_Call.scope_entry 2 3 1 "f" "g" 1 1,
      CATS_Call.scope_exit 5 3 1 "f" "g" 1 1]
    (WellNested.node 2 3 2 1 1 "f" "g" 1 1 "f" "g" 1 1 [] []
      WellNested.nil WellNested.nil)
    (WellNested.node 2 5 3 1 1 "f" "g" 1 1 "f" "g" 1 1 [] []
      WellNested.nil WellNested.nil)

/-- Claim C4 witness: a concrete well-nested run with distinct callsites. -/
theorem claim_C4_wellnested_witness :
    (runP initTrace [CATS_Call.scope_entry 1 1 1 "f" "g" 1 1,
      CATS_Call.scope_entry 2 2 1 "f" "g" 1 1,
      CATS_Call.scope_exit 3 2 1 "f" "g" 1 1,
      CATS_Call.scope_exit 4 1 1 "f" "g" 1 1]).scope_stack = [] ∧
    (runP initTrace [CATS_Call.scope_entry 1 1 1 "f" "g" 1 1,
      CATS_Call.scope_entry 2 2 1 "f" "g" 1 1,
      CATS_Call.scope_exit 3 2 1 "f" "g" 1 1,
      CATS_Call.scope_exit 4 1 1 "f" "g" 1 1]).events
      = [CATS_Call.scope_entry 1 1 1 "f" "g" 1 1,
          CATS_Call.scope_entry 2 2 1 "f" "g" 1 1,
          CATS_Call.scope_exit 3 2 1 "f" "g" 1 1,
          CATS_Call.scope_exit 4 1 1 "f" "g" 1 1].map scopeCallEvent :=
  claim_C4_wellnested
    [CATS_Call.scope_entry 1 1 1 "f" "g" 1 1,
      CATS_Call.scope_entry 2 2 1 "f" "g" 1 1,
      CATS_Call.scope_exit 3 2 1 "f" "g" 1 1,
      CATS_Call.scope_exit 4 1 1 "f" "g" 1 1]
    (WellNested.node 1 4 1 1 1 "f" "g" 1 1 "f" "g" 1 1
      [CATS_Call.scope_entry 2 2 1 "f" "g" 1 1,
        CATS_Call.scope_exit 3 2 1 "f" "g" 1 1] []
      (WellNested.node 2 3 2 1 1 "f" "g" 1 1 "f" "g" 1 1 [] []
        WellNested.nil WellNested.nil)
      WellNested.nil)
    (by decide) (by decide)

/-- Comma-prefixed rendering of the non-leading elements of the array. -/
def joinPreS : List String → String
  | [] => ""
  | x :: r => (",\n" ++ x) ++ joinPreS r

theorem joinComma_cons (x : String) (r : List String) :
    joinComma (x :: r) = x ++ joinPreS r := by
  induction r generalizing x with
  | nil => simp [joinComma, joinPreS, String.append_empty]
  | cons y r2 ih =>
      show joinComma (x :: y :: r2) = x ++ ((",\n" ++ y) ++ joinPreS r2)
      rw [joinComma, ih y]
      simp [String.append_assoc]

theorem foldl_body (evs : List CATS_Event) (a : String) :
    (evs.foldl
      (fun acc e => (acc.1 ++ (if acc.2 then "" else ",\n") ++ serializeEvent e,
        false)) (a, false)).1
      = a ++ joinPreS (evs.map serializeEvent) := by
  induction evs generalizing a with
  | nil => simp [joinPreS, String.append_empty]
  | cons e r ih =>
      rw [List.foldl_cons]
      show (r.foldl _ (a ++ ",\n" ++ serializeEvent e, false)).1 = _
      rw [ih]
      simp [joinPreS, String.append_assoc]

theorem eventsLoopBody_eq (evs : List CATS_Event) :
    eventsLoopBody evs = joinComma (specEventsArray evs) := by
  cases evs with
  | nil => rfl
  | cons e r =>
      unfold eventsLoopBody
      rw [List.foldl_cons]
      show (r.foldl _ ("" ++ "" ++ serializeEvent e, false)).1 = _
      rw [foldl_body]
      rw [String.empty_append, String.empty_append]
      show serializeEvent e ++ joinPreS (r.map serializeEvent)
        = joinComma (serializeEvent e :: r.map serializeEvent)
      rw [joinComma_cons]

/-- Claim C8: after any primary-thread call sequence, `save` renders exactly
the recorded event log: the document equals the reference document whose
`events` array is the log mapped element-wise through the serializer, in
recording order, and that array has exactly as many elements as the log. -/
theorem claim_C8_save (calls : List CATS_Call) :
    save (runP initTrace calls).events
      = specDocument (specEventsArray (runP initTrace calls).events) ∧
    (specEventsArray (runP initTrace calls).events).length
      = (runP initTrace calls).events.length := by
  constructor
  · unfold save specDocument
    rw [eventsLoopBody_eq]
  · simp [specEventsArray]

/-- Whether a character is structural for the output format. -/
def charFree (c : Char) : Prop := c ≠ '"' ∧ c ≠ '\\'

instance (c : Char) : Decidable (charFree c) := by
  unfold charFree
  infer_instance

theorem digitChar_free_lt (m : Nat) (h : m < 10) : charFree (Nat.digitChar m) := by
  interval_cases m <;> exact ⟨by decide, by decide⟩

theorem toDigitsCore_free :
    ∀ (fuel n : Nat) (ds : List Char), (∀ c ∈ ds, charFree c) →
      ∀ c ∈ Nat.toDigitsCore 10 fuel n ds, charFree c := by
  intro fuel
  induction fuel with
  | zero => intro n ds hds c hc; exact hds c hc
  | succ f ih =>
      intro n ds hds c hc
      rw [Nat.toDigitsCore] at hc
      by_cases h : n / 10 = 0
      · rw [if_pos h] at hc
        rcases List.mem_cons.mp hc with rfl | hc'
        · exact digitChar_free_lt _ (Nat.mod_lt _ (by omega))
        · exact hds c hc'
      · rw [if_neg h] at hc
        refine ih (n / 10) (Nat.digitChar (n % 10) :: ds) ?_ c hc
        intro c' hc'
        rcases List.mem_cons.mp hc' with rfl | hc''
        · exact digitChar_free_lt _ (Nat.mod_lt _ (by omega))
        · exact hds c' hc''

theorem toString_nat_free (n : Nat) :
    ∀ c ∈ (toString n : String).data, charFree c := by
  intro c hc
  have hd : (toString n : String).data = Nat.toDigitsCore 10 (n + 1) n [] := rfl
  rw [hd] at hc
  exact toDigitsCore_free (n + 1) n [] (by intro c' hc'; cases hc') c hc

/-- Whether a string contains no structural character of the output format. -/
def structuralFree (s : String) : Prop := ∀ c ∈ s.data, charFree c

instance (s : String) : Decidable (structuralFree s) := by
  unfold structuralFree
  exact List.decidableBAll _ _

/-- Runs the quote scanner over a string from an arbitrary state. -/
def scanS (st : Bool × Bool) (s : String) : Bool × Bool :=
  s.data.foldl qstep st

theorem scanS_append (st : Bool × Bool) (s t : String) :
    scanS st (s ++ t) = scanS (scanS st s) t := by
  unfold scanS
  rw [String.data_append, List.foldl_append]

theorem scanS_inside (s : String) (h : structuralFree s) :
    scanS (true, false) s = (true, false) := by
  unfold scanS
  have key : ∀ (l : List Char), (∀ c ∈ l, charFree c) →
      l.foldl qstep (true, false) = (true, false) := by
    intro l
    induction l with
    | nil => intro _; rfl
    | cons c r ih =>
        intro hl
        have hc := hl c (List.mem_cons_self _ _)
        show List.foldl qstep (qstep (true, false) c) r = (true, false)
        rw [show qstep (true, false) c = (true, false) by
          simp [qstep, hc.1, hc.2]]
        exact ih (fun c' hc' => hl c' (List.mem_cons_of_mem _ hc'))
  exact key s.data h

theorem scanS_outside (s : String) (h : structuralFree s) :
    scanS (false, false) s = (false, false) := by
  unfold scanS
  have key : ∀ (l : List Char), (∀ c ∈ l, charFree c) →
      l.foldl qstep (false, false) = (false, false) := by
    intro l
    induction l with
    | nil => intro _; rfl
    | cons c r ih =>
        intro hl
        have hc := hl c (List.mem_cons_self _ _)
        show List.foldl qstep (qstep (false, false) c) r = (false, false)
        rw [show qstep (false, false) c = (false, false) by
          simp [qstep, hc.1, hc.2]]
        exact ih (fun c' hc' => hl c' (List.mem_cons_of_mem _ hc'))
  exact key s.data h

theorem scanS_num (n : Nat) :
    scanS (false, false) (toString n) = (false, false) :=
  scanS_outside _ (toString_nat_free n)

theorem scopeTypeTag_free (ty : Nat) : structuralFree (scopeTypeTag ty) := by
  unfold scopeTypeTag
  split_ifs <;> exact by decide

/-- Buffer name embedded in an event's payload, if its kind carries one. -/
def eventNames (e : CATS_Event) : List String :=
  match e.event_args with
  | .allocation n _ _ => [n]
  | .deallocation n _ => [n]
  | .access n _ _ => [n]
  | .scope_entry _ _ => []
  | .scope_exit _ => []

/-- Claim C9 (amended): the serializer performs no escaping and copies the
function, file and buffer names into the document verbatim; whenever those
names contain no double quote and no backslash, the rendered element has
every quoted literal properly closed (the quote scanner ends outside a
literal). A name containing structural characters is not protected and can
break well-formedness, as the counterexample's `a"b` does. -/
theorem claim_C9_escaping (e : CATS_Event)
    (hf : structuralFree e.debug_info.funcname)
    (hg : structuralFree e.debug_info.filename)
    (hb : ∀ s ∈ eventNames e, structuralFree s) :
    scanQuotes (serializeEvent e) = (false, false) := by
  obtain ⟨args, d⟩ := e
  show scanS (false, false) (serializeEvent ⟨args, d⟩) = (false, false)
  cases args with
  | allocation name id size =>
      have hn : structuralFree name := hb name (by simp [eventNames])
      unfold serializeEvent serializeEventArgs
      repeat rw [scanS_append]
      rw [show scanS (false, false) "    \x7b\"funcname\": \"" = (true, false)
        by decide]
      rw [scanS_inside _ hf]
      rw [show scanS (true, false) "\", \"filename\": \"" = (true, false)
        by decide]
      rw [scanS_inside _ hg]
      rw [show scanS (true, false) "\", \"line\": " = (false, false) by decide]
      rw [scanS_num]
      rw [show scanS (false, false) ", \"col\": " = (false, false) by decide]
      rw [scanS_num]
      rw [show scanS (false, false)
        ", \"type\": \"allocation\", \"buffer_name\": \"" = (true, false)
        by decide]
      rw [scanS_inside _ hn]
      rw [show scanS (true, false) "\", \"buffer_id\": " = (false, false)
        by decide]
      rw [scanS_num]
      rw [show scanS (false, false) ", \"size\": " = (false, false) by decide]
      rw [scanS_num]
      decide
  | deallocation name id =>
      have hn : structuralFree name := hb name (by simp [eventNames])
      unfold serializeEvent serializeEventArgs
      repeat rw [scanS_append]
      rw [show scanS (false, false) "    \x7b\"funcname\": \"" = (true, false)
        by decide]
      rw [scanS_inside _ hf]
      rw [show scanS (true, false) "\", \"filename\": \"" = (true, false)
        by decide]
      rw [scanS_inside _ hg]
      rw [show scanS (true, false) "\", \"line\": " = (false, false) by decide]
      rw [scanS_num]
      rw [show scanS (false, false) ", \"col\": " = (false, false) by decide]
      rw [scanS_num]
      rw [show scanS (false, false)
        ", \"type\": \"deallocation\", \"buffer_name\": \"" = (true, false)
        by decide]
      rw [scanS_inside _ hn]
      rw [show scanS (true, false) "\", \"buffer_id\": " = (false, false)
        by decide]
      rw [scanS_num]
      decide
  | access name id w =>
      have hn : structuralFree name := hb name (by simp [eventNames])
      unfold serializeEvent serializeEventArgs
      repeat rw [scanS_append]
      rw [show scanS (false, false) "    \x7b\"funcname\": \"" = (true, false)
        by decide]
      rw [scanS_inside _ hf]
      rw [show scanS (true, false) "\", \"filename\": \"" = (true, false)
        by decide]
      rw [scanS_inside _ hg]
      rw [show scanS (true, false) "\", \"line\": " = (false, false) by decide]
      rw [scanS_num]
      rw [show scanS (false, false) ", \"col\": " = (false, false) by decide]
      rw [scanS_num]
      rw [show scanS (false, false) ", \"type\": \"access\", \"mode\": "
        = (false, false) by decide]
      cases w with
      | false =>
          rw [show scanS (false, false)
            (if (false : Bool) then "\"w\"" else "\"r\"") = (false, false)
            by decide]
          rw [show scanS (false, false) ", \"buffer_name\": \"" = (true, false)
            by decide]
          rw [scanS_inside _ hn]
          rw [show scanS (true, false) "\", \"buffer_id\": " = (false, false)
            by decide]
          rw [scanS_num]
          decide
      | true =>
          rw [show scanS (false, false)
            (if (true : Bool) then "\"w\"" else "\"r\"") = (false, false)
            by decide]
          rw [show scanS (false, false) ", \"buffer_name\": \"" = (true, false)
            by decide]
          rw [scanS_inside _ hn]
          rw [show scanS (true, false) "\", \"buffer_id\": " = (false, false)
            by decide]
          rw [scanS_num]
          decide
  | scope_entry sid ty =>
      unfold serializeEvent serializeEventArgs
      repeat rw [scanS_append]
      rw [show scanS (false, false) "    \x7b\"funcname\": \"" = (true, false)
        by decide]
      rw [scanS_inside _ hf]
      rw [show scanS (true, false) "\", \"filename\": \"" = (true, false)
        by decide]
      rw [scanS_inside _ hg]
      rw [show scanS (true, false) "\", \"line\": " = (false, false) by decide]
      rw [scanS_num]
      rw [show scanS (false, false) ", \"col\": " = (false, false) by decide]
      rw [scanS_num]
      rw [show scanS (false, false)
        ", \"type\": \"scope_entry\", \"scope_type\": \"" = (true, false)
        by decide]
      rw [scanS_inside _ (scopeTypeTag_free ty)]
      rw [show scanS (true, false) "\", \"id\": " = (false, false) by decide]
      rw [scanS_num]
      decide
  | scope_exit sid =>
      unfold serializeEvent serializeEventArgs
      repeat rw [scanS_append]
      rw [show scanS (false, false) "    \x7b\"funcname\": \"" = (true, false)
        by decide]
      rw [scanS_inside _ hf]
      rw [show scanS (true, false) "\", \"filename\": \"" = (true, false)
        by decide]
      rw [scanS_inside _ hg]
      rw [show scanS (true, false) "\", \"line\": " = (false, false) by decide]
      rw [scanS_num]
      rw [show scanS (false, false) ", \"col\": " = (false, false) by decide]
      rw [scanS_num]
      rw [show scanS (false, false) ", \"type\": \"scope_exit\", \"id\": "
        = (false, false) by decide]
      rw [scanS_num]
      decide

set_option maxRecDepth 8192 in
/-- Counterexample to C9 as stated: an allocation whose buffer name is
`a"b` is stored verbatim in the log, and the serializer emits the name's
double quote unescaped (the rendered element is given character for
character), so a quoted literal is left open (the scanner ends inside a
literal) and the output is not well-formed. -/
theorem claim_C9_counterexample :
    (instrument_alloc false 0 1 "a\"b" 100 8 "f" "g" 1 1 initTrace).events
      = [⟨.allocation "a\"b" 100 8, mkDebugInfo "f" "g" 1 1⟩] ∧
    serializeEvent ⟨.allocation "a\"b" 100 8, mkDebugInfo "f" "g" 1 1⟩
      = "    \x7b\"funcname\": \"f\", \"filename\": \"g\", \"line\": 1, \"col\": 1, \"type\": \"allocation\", \"buffer_name\": \"a\"b\", \"buffer_id\": 100, \"size\": 8\x7d" ∧
    scanQuotes (serializeEvent ⟨.allocation "a\"b" 100 8, mkDebugInfo "f" "g" 1 1⟩)
      ≠ (false, false) := by
  refine ⟨by decide, by decide, by decide⟩

/-- Claim C9 witness: a clean concrete event scans balanced. -/
theorem claim_C9_escaping_witness :
    scanQuotes (serializeEvent ⟨.allocation "x" 100 8, mkDebugInfo "f" "g" 1 1⟩)
      = (false, false) :=
  claim_C9_escaping ⟨.allocation "x" 100 8, mkDebugInfo "f" "g" 1 1⟩
    (by decide) (by decide) (by intro s hs; cases hs with
      | head => decide
      | tail _ h => cases h)

end CatsRuntime
